import Mathlib

/-!
Verification of the QuickSearch pino transport (TypeScript) against its
specification, via a shallow embedding of the source in Lean 4.

Embedded source files:
* `src/http-client.ts` — `QuickSearchHttpClient` (retry loop, error
  classification, endpoint and header construction, batch dispatch).
* `src/transport.ts` — the buffer manager (`addToBuffer`, `flush`, `close`),
  modelled as a small-step transition system on `TransportState`.
* `src/utils.ts` / `src/types.ts` — level-name lookup (`getLevelValue`,
  `meetsMinimumLevel`, `MIN_LEVEL_VALUES`).

Machine integers are modelled as `Nat`/`Int` (JavaScript numbers in this code
are small non-negative counters, millisecond durations and HTTP statuses;
no overflow is reachable). Promise-returning functions are modelled as pure
functions whose network outcomes are supplied by an oracle argument.
-/

namespace QuickSearch

/-! ## Data model (src/types.ts) -/

/-- `QuickSearchEventType`: the six event-type literals of the API. -/
inductive QuickSearchEventType where
  | Trace | Debug | Information | Warning | Error | Critical
deriving DecidableEq, Repr

/-- `QuickSearchEvent`: the normalized event sent to the server.  The
open-ended `data` bag (`QuickSearchEventData`) is modelled as an association
list from string keys to string-rendered values; none of the verified claims
depends on the value representation. -/
structure QuickSearchEvent where
  type : QuickSearchEventType
  application : String
  timestamp : String
  message : String
  data : List (String × String)
deriving DecidableEq, Repr

/-- `EventResponse`: the server's reply body. -/
structure EventResponse where
  success : Bool
  message : String
  eventId : Option String
deriving DecidableEq, Repr

/-! ## Delivery client (src/http-client.ts) -/

/-- A thrown JavaScript `Error` as the client observes it: its message and the
optional ad hoc `code` property (`HTTP_{status}`, `TIMEOUT`, a Node network
code, or absent). -/
structure SendError where
  message : String
  code : Option String
deriving DecidableEq, Repr

/-- The outcome of one `sendEvent` call (one HTTP attempt): either a parsed
`EventResponse`, or a thrown error. -/
inductive SendOutcome where
  | ok (resp : EventResponse)
  | err (e : SendError)
deriving DecidableEq, Repr

/-- JavaScript `s.startsWith(p)`, modelled over the character lists (it agrees
with Lean's `String.startsWith`, whose runtime implementation does not reduce
in the kernel). -/
def strStartsWith (s p : String) : Bool :=
  p.data.isPrefixOf s.data

/-- `isNonRetryableError` from src/http-client.ts:

```ts
const code = (error as NodeJS.ErrnoException).code;
if (!code) return false;
if (code.startsWith('HTTP_4') && code !== 'HTTP_429') return true;
return false;
```

A missing code and the falsy empty string both yield `false`. -/
def isNonRetryableError (e : SendError) : Bool :=
  match e.code with
  | none => false
  | some code =>
    if code = "" then false
    else if strStartsWith code "HTTP_4" && code != "HTTP_429" then true
    else false

/-- The observable outcome of `sendEventWithRetry`: the value returned or
error thrown, together with the number of `sendEvent` calls made and the list
of backoff delays slept (in order). `aborted` is the non-retryable early
`throw lastError`; `exhausted` is the final `throw lastError` after the loop. -/
inductive RetryResult where
  | success (resp : EventResponse) (attempts : Nat) (delays : List Nat)
  | aborted (e : SendError) (attempts : Nat) (delays : List Nat)
  | exhausted (e : SendError) (attempts : Nat) (delays : List Nat)
deriving DecidableEq, Repr

/-- Number of `sendEvent` calls recorded in a `RetryResult`. -/
def RetryResult.attempts : RetryResult → Nat
  | .success _ n _ => n
  | .aborted _ n _ => n
  | .exhausted _ n _ => n

/-- Backoff delays recorded in a `RetryResult`, in the order slept. -/
def RetryResult.delays : RetryResult → List Nat
  | .success _ _ ds => ds
  | .aborted _ _ ds => ds
  | .exhausted _ _ ds => ds

/-- The retry loop of `sendEventWithRetry` from src/http-client.ts, entered at
loop index `attempt`:

```ts
for (let attempt = 0; attempt <= this.retryAttempts; attempt++) {
  try { return await this.sendEvent(event); }
  catch (error) {
    lastError = ...;
    if (this.isNonRetryableError(lastError)) throw lastError;
    if (attempt < this.retryAttempts) {
      const delay = this.retryDelay * Math.pow(2, attempt);
      await sleep(delay);
    }
  }
}
throw lastError;
```

`oracle i` is the outcome of the `sendEvent(event)` call made at loop index
`i` (the event itself does not influence the control flow). -/
def retryFrom (oracle : Nat → SendOutcome) (retryAttempts retryDelay : Nat)
    (attempt : Nat) : RetryResult :=
  match oracle attempt with
  | .ok r => .success r 1 []
  | .err e =>
    if isNonRetryableError e then .aborted e 1 []
    else if _h : attempt < retryAttempts then
      let d := retryDelay * 2 ^ attempt
      match retryFrom oracle retryAttempts retryDelay (attempt + 1) with
      | .success r n ds => .success r (n + 1) (d :: ds)
      | .aborted e' n ds => .aborted e' (n + 1) (d :: ds)
      | .exhausted e' n ds => .exhausted e' (n + 1) (d :: ds)
    else .exhausted e 1 []
termination_by retryAttempts - attempt
decreasing_by omega

/-- `sendEventWithRetry(event)`: the retry loop started at attempt 0. -/
def sendEventWithRetry (oracle : Nat → SendOutcome)
    (retryAttempts retryDelay : Nat) : RetryResult :=
  retryFrom oracle retryAttempts retryDelay 0

/-! ## Batch dispatch (src/http-client.ts, `sendEvents`) -/

/-- `Promise.all` over the per-event retry results: rejects with the first
error (thrown result) if any, otherwise fulfills. -/
def promiseAll : List RetryResult → Except SendError Unit
  | [] => .ok ()
  | .success _ _ _ :: rest => promiseAll rest
  | .aborted e _ _ :: _ => .error e
  | .exhausted e _ _ :: _ => .error e

/-- `sendEvents(events)` from src/http-client.ts:

```ts
if (events.length === 0) return;
const promises = events.map(event => this.sendEventWithRetry(event));
try { await Promise.all(promises); selfLog.debug(...); }
catch (error) { selfLog.warn(...); }   // logged, not rethrown
```

`oracle e i` gives the outcome of attempt `i` of event `e`'s sends.  Returns
the value returned / error thrown to the caller, paired with the number of
`sendEventWithRetry` calls issued. -/
def sendEvents (oracle : QuickSearchEvent → Nat → SendOutcome)
    (retryAttempts retryDelay : Nat) (events : List QuickSearchEvent) :
    Except SendError Unit × Nat :=
  if events.length = 0 then (.ok (), 0)
  else
    let results := events.map fun e => sendEventWithRetry (oracle e) retryAttempts retryDelay
    match promiseAll results with
    | .ok _ => (.ok (), results.length)
    | .error _ => (.ok (), results.length)

/-! ## Endpoint and headers (src/http-client.ts) -/

/-- Constructed fields of `QuickSearchHttpClient` relevant to request
building. -/
structure HttpClientFields where
  serverUrl : String
  apiKey : Option String
  endpoint : String
deriving DecidableEq, Repr

/-- `options.serverUrl.replace(/\/$/, '')` — remove one trailing slash.
Modelled over the character list (Lean's `String.endsWith`/`dropRight` do not
reduce in the kernel). -/
def stripTrailingSlash (s : String) : String :=
  if s.data.getLast? = some '/' then String.mk s.data.dropLast else s

/-- The `QuickSearchHttpClient` constructor (src/http-client.ts lines 35–42):
strips a trailing slash from `serverUrl` and fixes
`endpoint = serverUrl + "/api/events"`. -/
def mkHttpClient (serverUrl : String) (apiKey : Option String) :
    HttpClientFields :=
  let su := stripTrailingSlash serverUrl
  { serverUrl := su, apiKey := apiKey, endpoint := su ++ "/api/events" }

/-- `getHeaders()` from src/http-client.ts: always `Content-Type`, plus
`Authorization: Bearer {apiKey}` when `this.apiKey` is truthy (present and
non-empty; the empty string is falsy in JavaScript). -/
def getHeaders (c : HttpClientFields) : List (String × String) :=
  let headers := [("Content-Type", "application/json")]
  match c.apiKey with
  | some k => if k ≠ "" then headers ++ [("Authorization", "Bearer " ++ k)] else headers
  | none => headers

/-- A minimal JSON string escape (backslash and double quote), used by the
event serializer. -/
def jsonEscape (s : String) : String :=
  String.join (s.data.map fun c =>
    if c = '\\' then "\\\\" else if c = '"' then "\\\"" else String.singleton c)

/-- Render a string as a JSON string literal. -/
def jsonStr (s : String) : String := "\"" ++ jsonEscape s ++ "\""

/-- Name of one `QuickSearchEventType` literal. -/
def QuickSearchEventType.asString : QuickSearchEventType → String
  | .Trace => "Trace"
  | .Debug => "Debug"
  | .Information => "Information"
  | .Warning => "Warning"
  | .Error => "Error"
  | .Critical => "Critical"

/-- `JSON.stringify(event)`: JSON serialization of a `QuickSearchEvent` in
field declaration order (type, application, timestamp, message, data). -/
def eventToJson (e : QuickSearchEvent) : String :=
  "\x7b" ++ jsonStr "type" ++ ":" ++ jsonStr e.type.asString
  ++ "," ++ jsonStr "application" ++ ":" ++ jsonStr e.application
  ++ "," ++ jsonStr "timestamp" ++ ":" ++ jsonStr e.timestamp
  ++ "," ++ jsonStr "message" ++ ":" ++ jsonStr e.message
  ++ "," ++ jsonStr "data" ++ ":" ++ "\x7b"
  ++ String.intercalate ","
       (e.data.map fun kv => jsonStr kv.1 ++ ":" ++ jsonStr kv.2)
  ++ "\x7d\x7d"

/-- An outbound HTTP request as `fetch` receives it. -/
structure HttpRequest where
  url : String
  method : String
  headers : List (String × String)
  body : String
deriving DecidableEq, Repr

/-- The request built by one `sendEvent` attempt (src/http-client.ts lines
93–124): `fetch(this.endpoint, { method: 'POST', headers: this.getHeaders(),
body: JSON.stringify(event), ... })`. -/
def buildRequest (c : HttpClientFields) (e : QuickSearchEvent) : HttpRequest :=
  { url := c.endpoint
    method := "POST"
    headers := getHeaders c
    body := eventToJson e }

/-! ## Flush scheduler / buffer manager (src/transport.ts)

The transport closure holds a mutable `TransportState`.  The async `flush`
has exactly one suspension point (`await httpClient.sendEvents(events)`), so
it is modelled in two phases: `flushStart` is the synchronous prefix up to
the `await` (guard check, setting the flag, the `splice`), and the `finally`
clause that clears the flag runs when the send settles.  `flushRun` is a
whole flush whose send settles immediately (as when the caller awaits it and
no other task intervenes). -/

/-- `TransportState` from src/types.ts.  The `flushTimer` handle is modelled
by whether it is non-null. -/
structure TransportState where
  buffer : List QuickSearchEvent
  flushTimer : Bool
  closed : Bool
  flushing : Bool
deriving DecidableEq, Repr

/-- Configuration fields of the transport read by the buffer manager. -/
structure TransportConfig where
  batchSize : Nat
  queueSizeLimit : Nat
deriving DecidableEq, Repr

/-- State right after transport construction: empty buffer, periodic timer
started (`startFlushTimer()`), not closed, no flush in progress. -/
def initialState : TransportState :=
  { buffer := [], flushTimer := true, closed := false, flushing := false }

/-- Synchronous prefix of `flush()` (src/transport.ts):

```ts
if (state.buffer.length === 0 || state.flushing) return;
state.flushing = true;
const events = state.buffer.splice(0);
```

Returns the new state and `some events` taken (or `none` on the no-op
path). -/
def flushStart (s : TransportState) : TransportState × Option (List QuickSearchEvent) :=
  if s.buffer.length == 0 || s.flushing then (s, none)
  else ({ s with flushing := true, buffer := [] }, some s.buffer)

/-- The `finally` clause of `flush()`: `state.flushing = false`, run when the
awaited `sendEvents` settles (the `try`/`catch` bodies only log). -/
def flushEnd (s : TransportState) : TransportState :=
  { s with flushing := false }

/-- A whole `flush()` whose `sendEvents` settles immediately with outcome
`sendOk` (`true` = fulfilled, `false` = rejected; the `catch` absorbs a
rejection, so the state effect is the same either way). -/
def flushRun (sendOk : Bool) (s : TransportState) :
    TransportState × Option (List QuickSearchEvent) :=
  match flushStart s with
  | (s', none) => (s', none)
  | (s', some events) =>
    match sendOk with
    | true => (flushEnd s', some events)
    | false => (flushEnd s', some events)

/-- The buffer update inside `addToBuffer` (src/transport.ts):

```ts
if (state.buffer.length >= config.queueSizeLimit) state.buffer.shift();
state.buffer.push(event);
```
-/
def enqueueBuffer (cfg : TransportConfig) (buffer : List QuickSearchEvent)
    (e : QuickSearchEvent) : List QuickSearchEvent :=
  (if cfg.queueSizeLimit ≤ buffer.length then buffer.tail else buffer) ++ [e]

/-- One externally triggered action on the transport state. -/
inductive Cmd where
  /-- `addToBuffer(event)` — one enqueue; a triggered flush runs its
  synchronous prefix (`flushStart`) inside the call. -/
  | enqueue (e : QuickSearchEvent)
  /-- A timer tick firing `flush()` (synchronous prefix). -/
  | timerTick
  /-- The pending `sendEvents` of an in-flight flush settles (its `finally`
  clause runs). -/
  | completeSend
  /-- `close()`, whose final `flush()` is awaited; `sendOk` is the settle
  outcome of that flush's send. -/
  | close (sendOk : Bool)

/-- Small-step semantics of the transport closure.  Each step returns the new
state and `some batch` when a flush passed its guard and drained `batch` to
the dispatcher.

`enqueue` embeds `addToBuffer` (src/transport.ts):

```ts
if (state.closed) { selfLog.warn(...); return; }
if (state.buffer.length >= config.queueSizeLimit) state.buffer.shift();
state.buffer.push(event);
if (state.buffer.length >= config.batchSize) flush().catch(...);
```

`close` embeds `close()` (src/transport.ts):

```ts
if (state.closed) return;
state.closed = true;
stopFlushTimer();
await flush();
```
-/
def step (cfg : TransportConfig) (s : TransportState) :
    Cmd → TransportState × Option (List QuickSearchEvent)
  | .enqueue e =>
    if s.closed then (s, none)
    else
      let s1 := { s with buffer := enqueueBuffer cfg s.buffer e }
      if cfg.batchSize ≤ s1.buffer.length then flushStart s1
      else (s1, none)
  | .timerTick =>
    if s.flushTimer then flushStart s else (s, none)
  | .completeSend =>
    if s.flushing then (flushEnd s, none) else (s, none)
  | .close sendOk =>
    if s.closed then (s, none)
    else flushRun sendOk { s with closed := true, flushTimer := false }

/-- Run a sequence of commands, keeping only the final state. -/
def run (cfg : TransportConfig) (s : TransportState) : List Cmd → TransportState
  | [] => s
  | c :: cs => run cfg (step cfg s c).1 cs

/-- One enqueue under the schedule in which a flush it triggers settles
before the next external action (`step .enqueue` then `step .completeSend`). -/
def enqueueSync (cfg : TransportConfig) (s : TransportState)
    (e : QuickSearchEvent) : TransportState × Option (List QuickSearchEvent) :=
  let r := step cfg s (.enqueue e)
  ((step cfg r.1 .completeSend).1, r.2)

/-- Run a sequence of enqueues under the `enqueueSync` schedule, counting how
many flushes passed the guard and drained the buffer. -/
def runSync (cfg : TransportConfig) (s : TransportState) :
    List QuickSearchEvent → TransportState × Nat
  | [] => (s, 0)
  | e :: es =>
    let r := enqueueSync cfg s e
    let rest := runSync cfg r.1 es
    (rest.1, (if r.2.isSome then 1 else 0) + rest.2)

/-! ## Level utilities (src/utils.ts, src/types.ts) -/

/-- `MIN_LEVEL_VALUES` from src/types.ts, a record from level name to
numeric value. -/
def MIN_LEVEL_VALUES : List (String × Int) :=
  [("trace", 10), ("debug", 20), ("info", 30),
   ("warn", 40), ("error", 50), ("fatal", 60)]

/-- JavaScript `s.toLowerCase()` on the ASCII level names, modelled over the
character list (it agrees with Lean's `String.toLower`, whose runtime
implementation does not reduce in the kernel). -/
def toLowerCase (s : String) : String :=
  String.mk (s.data.map Char.toLower)

/-- The property names every plain JavaScript object literal inherits from
`Object.prototype` (Node.js).  A bracket lookup with one of these keys on an
object such as `MIN_LEVEL_VALUES` that lacks it as an own property still
finds the inherited member — a function or object, never nullish. -/
def OBJECT_PROTOTYPE_KEYS : List String :=
  ["constructor", "hasOwnProperty", "isPrototypeOf", "propertyIsEnumerable",
   "toLocaleString", "toString", "valueOf", "__proto__",
   "__defineGetter__", "__defineSetter__", "__lookupGetter__", "__lookupSetter__"]

/-- A JavaScript value as produced by a bracket lookup on a plain object: a
number, a non-numeric inherited object or function (which JavaScript numeric
comparison coerces to `NaN`), or `undefined`. -/
inductive JsValue where
  | num (n : Int)
  | protoObject
  | undefined
deriving DecidableEq, Repr

/-- JavaScript bracket lookup `MIN_LEVEL_VALUES[key]` on the plain object
literal of src/types.ts: an own property (one of the six level names) yields
its number; otherwise the lookup walks the prototype chain and, for an
`Object.prototype` member name such as `constructor` or `__proto__`, finds
that inherited non-nullish function/object; only for all remaining keys does
it yield `undefined`. -/
def MIN_LEVEL_VALUES_at (key : String) : JsValue :=
  match MIN_LEVEL_VALUES.lookup key with
  | some v => .num v
  | none => if key ∈ OBJECT_PROTOTYPE_KEYS then .protoObject else .undefined

/-- `getLevelValue` from src/utils.ts:
`MIN_LEVEL_VALUES[levelName.toLowerCase()] ?? 10`.  `??` substitutes 10 only
for a nullish operand, so an `Object.prototype` hit passes through unchanged
(despite the declared `number` return type). -/
def getLevelValue (levelName : String) : JsValue :=
  match MIN_LEVEL_VALUES_at (toLowerCase levelName) with
  | .undefined => .num 10
  | v => v

/-- `meetsMinimumLevel` from src/utils.ts:
`level >= getLevelValue(minimumLevel)`.  When the looked-up value is not a
number, JavaScript `>=` coerces it to `NaN` and the comparison is false for
every level. -/
def meetsMinimumLevel (level : Int) (minimumLevel : String) : Bool :=
  match getLevelValue minimumLevel with
  | .num v => v ≤ level
  | _ => false

/-- A sample event, used to instantiate theorems at concrete inputs. -/
def sampleEvent : QuickSearchEvent :=
  { type := .Information
    application := "test-app"
    timestamp := "2023-12-30T12:00:00.000Z"
    message := "Test message"
    data := [("level", "info"), ("hostname", "test-server")] }

/-! ## Lemmas about the retry loop -/

/-- A successful attempt returns at once. -/
lemma retryFrom_ok (oracle : Nat → SendOutcome) (ra rd a : Nat) (r : EventResponse)
    (h : oracle a = .ok r) : retryFrom oracle ra rd a = .success r 1 [] := by
  rw [retryFrom, h]

/-- A non-retryable error aborts at once. -/
lemma retryFrom_nonretryable (oracle : Nat → SendOutcome) (ra rd a : Nat) (e : SendError)
    (h : oracle a = .err e) (hn : isNonRetryableError e = true) :
    retryFrom oracle ra rd a = .aborted e 1 [] := by
  rw [retryFrom, h]
  simp [hn]

/-- A retryable error on the last allowed attempt exhausts with no delay. -/
lemma retryFrom_retry_last (oracle : Nat → SendOutcome) (ra rd a : Nat) (e : SendError)
    (h : oracle a = .err e) (hn : isNonRetryableError e = false) (hlt : ¬ a < ra) :
    retryFrom oracle ra rd a = .exhausted e 1 [] := by
  rw [retryFrom, h]
  simp [hn, hlt]

/-- A retryable error before the last attempt sleeps `retryDelay * 2^a` and
continues at attempt `a + 1`. -/
lemma retryFrom_retry_step (oracle : Nat → SendOutcome) (ra rd a : Nat) (e : SendError)
    (h : oracle a = .err e) (hn : isNonRetryableError e = false) (hlt : a < ra) :
    retryFrom oracle ra rd a =
      match retryFrom oracle ra rd (a + 1) with
      | .success r n ds => .success r (n + 1) (rd * 2 ^ a :: ds)
      | .aborted e' n ds => .aborted e' (n + 1) (rd * 2 ^ a :: ds)
      | .exhausted e' n ds => .exhausted e' (n + 1) (rd * 2 ^ a :: ds) := by
  rw [retryFrom, h]
  simp [hn, hlt]

/-- Prepending the delay slept at attempt `a` to the delays of the remaining
attempts gives one contiguous exponential-backoff sequence. -/
lemma consecutive_delays (rd a m : Nat) :
    rd * 2 ^ a :: (List.range m).map (fun k => rd * 2 ^ (a + 1 + k))
      = (List.range (m + 1)).map (fun k => rd * 2 ^ (a + k)) := by
  rw [List.range_succ_eq_map, List.map_cons, List.map_map]
  refine List.cons_eq_cons.mpr ⟨by rw [Nat.add_zero], ?_⟩
  apply List.map_congr_left
  intro k _
  simp only [Function.comp_apply]
  have hk : a + 1 + k = a + Nat.succ k := by omega
  rw [hk]

/-- Attempt-count bound and exact backoff schedule for the retry loop entered
at attempt `a`: at most `retryAttempts + 1 - a` further attempts, and the
delays slept form the exponential sequence starting at `retryDelay * 2^a`,
one fewer than the attempts made (so no delay follows the final attempt). -/
lemma retryFrom_spec (oracle : Nat → SendOutcome) (ra rd : Nat) :
    ∀ (n a : Nat), a ≤ ra → ra - a = n →
      1 ≤ (retryFrom oracle ra rd a).attempts
      ∧ (retryFrom oracle ra rd a).attempts ≤ ra + 1 - a
      ∧ (retryFrom oracle ra rd a).delays
          = (List.range ((retryFrom oracle ra rd a).attempts - 1)).map
              (fun k => rd * 2 ^ (a + k)) := by
  intro n
  induction n with
  | zero =>
    intro a ha hn
    have haa : a = ra := by omega
    subst haa
    rcases ho : oracle a with r | e
    · rw [retryFrom_ok oracle a rd a r ho]
      simp [RetryResult.attempts, RetryResult.delays]
    · rcases hnr : isNonRetryableError e with hf | ht
      · rw [retryFrom_retry_last oracle a rd a e ho hnr (by omega)]
        simp [RetryResult.attempts, RetryResult.delays]
      · rw [retryFrom_nonretryable oracle a rd a e ho hnr]
        simp [RetryResult.attempts, RetryResult.delays]
  | succ n ih =>
    intro a ha hn
    have hlt : a < ra := by omega
    rcases ho : oracle a with r | e
    · rw [retryFrom_ok oracle ra rd a r ho]
      simp [RetryResult.attempts, RetryResult.delays]
      omega
    · rcases hnr : isNonRetryableError e with hf | ht
      · rw [retryFrom_retry_step oracle ra rd a e ho hnr hlt]
        have sub := ih (a + 1) (by omega) (by omega)
        rcases hsub : retryFrom oracle ra rd (a + 1) with
          ⟨r, m, ds⟩ | ⟨e', m, ds⟩ | ⟨e', m, ds⟩ <;>
          rw [hsub] at sub <;>
          simp only [RetryResult.attempts, RetryResult.delays] at sub ⊢ <;>
          obtain ⟨h1, h2, h3⟩ := sub <;>
          refine ⟨by omega, by omega, ?_⟩ <;>
          · rw [h3, Nat.add_sub_cancel]
            obtain ⟨m', rfl⟩ : ∃ m', m = m' + 1 := ⟨m - 1, by omega⟩
            rw [Nat.add_sub_cancel]
            exact consecutive_delays rd a m'
      · rw [retryFrom_nonretryable oracle ra rd a e ho hnr]
        simp [RetryResult.attempts, RetryResult.delays]
        omega

set_option maxRecDepth 4000 in
/-- An error whose `code` is `HTTP_{status}` with `status ∈ [400,499] \ {429}`
is classified non-retryable. -/
lemma code_nonretryable_of_4xx (e : SendError) (status : Nat)
    (hcode : e.code = some ("HTTP_" ++ toString status))
    (h1 : 400 ≤ status) (h2 : status ≤ 499) (h3 : status ≠ 429) :
    isNonRetryableError e = true := by
  have key : ∀ k < 100,
      (strStartsWith ("HTTP_" ++ toString (400 + k)) "HTTP_4" = true)
      ∧ (400 + k = 429 ∨ ("HTTP_" ++ toString (400 + k)) ≠ "HTTP_429")
      ∧ ("HTTP_" ++ toString (400 + k)) ≠ "" := by decide
  obtain ⟨k, hk, rfl⟩ : ∃ k, k < 100 ∧ status = 400 + k :=
    ⟨status - 400, by omega, by omega⟩
  obtain ⟨ks, kne, kempty⟩ := key k hk
  have kne' : ("HTTP_" ++ toString (400 + k)) ≠ "HTTP_429" := by
    rcases kne with h | h
    · omega
    · exact h
  unfold isNonRetryableError
  rw [hcode]
  simp [kempty, ks, kne']

set_option maxRecDepth 4000 in
/-- An error whose `code` is `HTTP_{status}` with a 5xx status is classified
retryable. -/
lemma code_retryable_of_5xx (e : SendError) (status : Nat)
    (hcode : e.code = some ("HTTP_" ++ toString status))
    (h1 : 500 ≤ status) (h2 : status ≤ 599) :
    isNonRetryableError e = false := by
  have key : ∀ k < 100,
      strStartsWith ("HTTP_" ++ toString (500 + k)) "HTTP_4" = false := by decide
  obtain ⟨k, hk, rfl⟩ : ∃ k, k < 100 ∧ status = 500 + k :=
    ⟨status - 500, by omega, by omega⟩
  unfold isNonRetryableError
  rw [hcode]
  simp [key k hk]

/-- When every attempt fails with a retryable error, the loop entered at
attempt `a ≤ retryAttempts` runs all remaining attempts, sleeps the full
backoff schedule, and throws the error observed at the last attempt. -/
lemma retryFrom_exhausts (oracle : Nat → SendOutcome) (errf : Nat → SendError)
    (ra rd : Nat)
    (hor : ∀ i, oracle i = .err (errf i))
    (hretry : ∀ i, isNonRetryableError (errf i) = false) :
    ∀ (n a : Nat), a ≤ ra → ra - a = n →
      retryFrom oracle ra rd a
        = .exhausted (errf ra) (ra + 1 - a)
            ((List.range (ra - a)).map fun k => rd * 2 ^ (a + k)) := by
  intro n
  induction n with
  | zero =>
    intro a ha hn
    have haa : a = ra := by omega
    subst haa
    rw [retryFrom_retry_last oracle a rd a (errf a) (hor a) (hretry a) (by omega)]
    simp
  | succ n ih =>
    intro a ha hn
    have hlt : a < ra := by omega
    rw [retryFrom_retry_step oracle ra rd a (errf a) (hor a) (hretry a) hlt,
      ih (a + 1) (by omega) (by omega)]
    have harith : ra + 1 - (a + 1) + 1 = ra + 1 - a := by omega
    have hm : ra - a = (ra - (a + 1)) + 1 := by omega
    rw [hm]
    simp only [harith]
    rw [consecutive_delays rd a (ra - (a + 1))]

/-! ## Claim theorems: delivery client -/

/-- C1. For every event and configuration, `sendEventWithRetry` makes at most
`retryAttempts + 1` send attempts, and the backoff delays form exactly the
sequence `retryDelay * 2^(k-1)` before attempt `k` (0-indexed, `k ≥ 1`): the
`i`-th delay slept (0-indexed) is `retryDelay * 2^i`, and there is one delay
fewer than attempts made, so a delay only ever separates two attempts and
never follows the final one. -/
theorem sendEventWithRetry_attempt_bound_and_backoff
    (oracle : Nat → SendOutcome) (retryAttempts retryDelay : Nat) :
    1 ≤ (sendEventWithRetry oracle retryAttempts retryDelay).attempts
    ∧ (sendEventWithRetry oracle retryAttempts retryDelay).attempts
        ≤ retryAttempts + 1
    ∧ (sendEventWithRetry oracle retryAttempts retryDelay).delays
        = (List.range
            ((sendEventWithRetry oracle retryAttempts retryDelay).attempts - 1)).map
            (fun k => retryDelay * 2 ^ k) := by
  have h := retryFrom_spec oracle retryAttempts retryDelay retryAttempts 0
    (by omega) (by omega)
  simpa [sendEventWithRetry] using h

/-- C2. If the first attempt fails with an HTTP status in `[400,499]` other
than 429, `sendEventWithRetry` makes exactly one attempt, sleeps no backoff
delay, and propagates that very error to its caller. -/
theorem sendEventWithRetry_nonretryable_single_attempt
    (oracle : Nat → SendOutcome) (retryAttempts retryDelay status : Nat)
    (e : SendError)
    (h0 : oracle 0 = .err e)
    (hcode : e.code = some ("HTTP_" ++ toString status))
    (h4 : 400 ≤ status) (h4' : status ≤ 499) (h429 : status ≠ 429) :
    sendEventWithRetry oracle retryAttempts retryDelay = .aborted e 1 [] :=
  retryFrom_nonretryable oracle retryAttempts retryDelay 0 e h0
    (code_nonretryable_of_4xx e status hcode h4 h4' h429)

/-- Witness for C2 at a concrete input: a constant HTTP 404 oracle with
`retryAttempts = 3` makes exactly one attempt and rethrows the 404 error. -/
theorem sendEventWithRetry_nonretryable_single_attempt_witness :
    sendEventWithRetry
        (fun _ => .err ⟨"HTTP 404: Not Found", some ("HTTP_" ++ toString 404)⟩)
        3 1000
      = .aborted ⟨"HTTP 404: Not Found", some ("HTTP_" ++ toString 404)⟩ 1 [] :=
  sendEventWithRetry_nonretryable_single_attempt
    (fun _ => .err ⟨"HTTP 404: Not Found", some ("HTTP_" ++ toString 404)⟩)
    3 1000 404 ⟨"HTTP 404: Not Found", some ("HTTP_" ++ toString 404)⟩
    rfl rfl (by decide) (by decide) (by decide)

/-- C3. Errors with no code (network failures), code `TIMEOUT`, code
`HTTP_429`, or any 5xx `HTTP_{status}` code are all retryable: when every
attempt fails with such an error, `sendEventWithRetry` runs all
`retryAttempts + 1` attempts, sleeps the full backoff schedule, and ends by
throwing the last observed error as an exhaustion failure (`.exhausted`, the
final `throw lastError` after the loop) — not a non-retryable abort
(`.aborted`). -/
theorem sendEventWithRetry_retryable_exhaustion
    (oracle : Nat → SendOutcome) (errf : Nat → SendError)
    (retryAttempts retryDelay : Nat)
    (hor : ∀ i, oracle i = .err (errf i))
    (hcls : ∀ i, (errf i).code = none
        ∨ (errf i).code = some "TIMEOUT"
        ∨ (errf i).code = some "HTTP_429"
        ∨ ∃ status, 500 ≤ status ∧ status ≤ 599
            ∧ (errf i).code = some ("HTTP_" ++ toString status)) :
    sendEventWithRetry oracle retryAttempts retryDelay
      = .exhausted (errf retryAttempts) (retryAttempts + 1)
          ((List.range retryAttempts).map fun k => retryDelay * 2 ^ k) := by
  have hretry : ∀ i, isNonRetryableError (errf i) = false := by
    intro i
    rcases hcls i with h | h | h | ⟨status, h5, h5', h⟩
    · unfold isNonRetryableError
      rw [h]
    · unfold isNonRetryableError
      rw [h]
      decide
    · unfold isNonRetryableError
      rw [h]
      decide
    · exact code_retryable_of_5xx (errf i) status h h5 h5'
  have h := retryFrom_exhausts oracle errf retryAttempts retryDelay hor hretry
    retryAttempts 0 (by omega) (by omega)
  simpa [sendEventWithRetry] using h

/-- Witness for C3 at a concrete input: a constant HTTP 429 oracle with
`retryAttempts = 2` exhausts after 3 attempts with delays 10 and 20 ms. -/
theorem sendEventWithRetry_retryable_exhaustion_witness :
    sendEventWithRetry (fun _ => .err ⟨"HTTP 429: rate limited", some "HTTP_429"⟩) 2 10
      = .exhausted ⟨"HTTP 429: rate limited", some "HTTP_429"⟩ 3 [10, 20] := by
  have h := sendEventWithRetry_retryable_exhaustion
    (fun _ => .err ⟨"HTTP 429: rate limited", some "HTTP_429"⟩)
    (fun _ => ⟨"HTTP 429: rate limited", some "HTTP_429"⟩) 2 10
    (fun _ => rfl) (fun _ => Or.inr (Or.inr (Or.inl rfl)))
  simpa [List.range_succ] using h

/-- C7. `sendEvents` never raises to its caller: for every event list and
every pattern of per-event outcomes it returns normally (`Except.ok`), and it
issues one `sendEventWithRetry` per listed event — in particular none at all
for the empty list, for which it is a no-op. -/
theorem sendEvents_never_raises (oracle : QuickSearchEvent → Nat → SendOutcome)
    (retryAttempts retryDelay : Nat) (events : List QuickSearchEvent) :
    (sendEvents oracle retryAttempts retryDelay events).1 = .ok ()
    ∧ (sendEvents oracle retryAttempts retryDelay events).2 = events.length := by
  unfold sendEvents
  split
  · rename_i h
    exact ⟨rfl, h.symm⟩
  · rcases hp : promiseAll (events.map fun e =>
        sendEventWithRetry (oracle e) retryAttempts retryDelay) with u | er <;>
      simp [hp]

/-! ## Claim theorems: flush scheduler / buffer manager -/

/-- A whole `flush()` in closed form: no-op when the guard trips, otherwise it
empties the buffer, dispatches its old contents, and ends with the
`flushing` flag cleared — identically for both send outcomes. -/
lemma flushRun_eq (sendOk : Bool) (s : TransportState) :
    flushRun sendOk s =
      if s.buffer.length == 0 || s.flushing then (s, none)
      else ({ s with buffer := [], flushing := false }, some s.buffer) := by
  obtain ⟨buf, t, c, f⟩ := s
  by_cases hb : (buf.length == 0 || f) = true
  · simp [flushRun, flushStart, hb]
  · have hf : f = false := by
      rcases f <;> simp_all
    subst hf
    have hne : ¬ buf = [] := by
      simpa [List.length_eq_zero] using hb
    cases sendOk <;> simp [flushRun, flushStart, flushEnd, hb, hne]

/-- C5. `flush()` is a no-op leaving the state (and buffer) unchanged when
the buffer is empty or a flush is in progress.  Otherwise its synchronous
prefix sets the in-progress flag and takes the entire buffer in one step
(the buffer is empty immediately afterwards, never partially drained),
exactly the taken events are handed to the dispatcher, and on completion the
flag is cleared again whether the send succeeded or failed (`sendOk` does
not appear in the result). -/
theorem flush_noop_or_atomic_drain (s : TransportState) (sendOk : Bool) :
    ((s.buffer = [] ∨ s.flushing = true) → flushRun sendOk s = (s, none))
    ∧ (s.buffer ≠ [] → s.flushing = false →
        flushStart s = ({ s with buffer := [], flushing := true }, some s.buffer)
        ∧ flushRun sendOk s = ({ s with buffer := [] }, some s.buffer)) := by
  obtain ⟨buf, t, c, f⟩ := s
  constructor
  · intro h
    rcases h with h | h <;> simp_all [flushRun_eq]
  · intro h1 h2
    subst h2
    have hb : (buf.length == 0) = false := by
      simp [List.length_eq_zero]
      exact h1
    constructor
    · simp [flushStart, hb]
    · simp [flushRun_eq, hb]

/-- Witness for C5 at a concrete input: flushing a one-event buffer takes the
whole buffer atomically and ends with the flag cleared. -/
theorem flush_noop_or_atomic_drain_witness :
    flushStart ⟨[sampleEvent], true, false, false⟩
        = (⟨[], true, false, true⟩, some [sampleEvent])
    ∧ flushRun true ⟨[sampleEvent], true, false, false⟩
        = (⟨[], true, false, false⟩, some [sampleEvent]) :=
  (flush_noop_or_atomic_drain ⟨[sampleEvent], true, false, false⟩ true).2
    (by simp) rfl

/-- C6. `close()` is idempotent: the first call marks the transport closed,
stops the periodic timer and performs one awaited `flush()` (the resulting
state is closed with the timer stopped); a call on an already-closed
transport changes nothing, dispatches nothing and returns without error; and
once closed, every `addToBuffer` is rejected — the state (hence the buffer)
is unchanged and no flush is dispatched. -/
theorem close_idempotent_and_rejects_enqueue (cfg : TransportConfig)
    (s : TransportState) (sendOk : Bool) :
    (s.closed = false →
        step cfg s (.close sendOk)
          = flushRun sendOk { s with closed := true, flushTimer := false }
        ∧ (step cfg s (.close sendOk)).1.closed = true
        ∧ (step cfg s (.close sendOk)).1.flushTimer = false)
    ∧ (s.closed = true → step cfg s (.close sendOk) = (s, none))
    ∧ (∀ e, s.closed = true → step cfg s (.enqueue e) = (s, none)) := by
  obtain ⟨buf, t, c, f⟩ := s
  refine ⟨?_, ?_, ?_⟩
  · intro hc
    subst hc
    refine ⟨by simp [step], ?_, ?_⟩ <;>
      · simp only [step, if_neg Bool.false_ne_true, flushRun_eq]
        split <;> simp
  · intro hc
    subst hc
    simp [step]
  · intro e hc
    subst hc
    simp [step]

/-- Witness for C6 at a concrete input: on a closed transport, a second
`close()` and an `addToBuffer` both leave the state untouched and dispatch
nothing. -/
theorem close_idempotent_and_rejects_enqueue_witness :
    step ⟨2, 10⟩ ⟨[sampleEvent], false, true, false⟩ (.close true)
        = (⟨[sampleEvent], false, true, false⟩, none)
    ∧ step ⟨2, 10⟩ ⟨[sampleEvent], false, true, false⟩ (.enqueue sampleEvent)
        = (⟨[sampleEvent], false, true, false⟩, none) :=
  ⟨(close_idempotent_and_rejects_enqueue ⟨2, 10⟩
      ⟨[sampleEvent], false, true, false⟩ true).2.1 rfl,
   (close_idempotent_and_rejects_enqueue ⟨2, 10⟩
      ⟨[sampleEvent], false, true, false⟩ true).2.2 sampleEvent rfl⟩

/-- The synchronous prefix of `flush()` never grows the buffer. -/
lemma flushStart_buffer_le (s : TransportState) :
    (flushStart s).1.buffer.length ≤ s.buffer.length := by
  unfold flushStart
  split <;> simp

/-- A whole `flush()` never grows the buffer. -/
lemma flushRun_buffer_le (sendOk : Bool) (s : TransportState) :
    (flushRun sendOk s).1.buffer.length ≤ s.buffer.length := by
  rw [flushRun_eq]
  split <;> simp

/-- Every transition preserves the buffer bound `length ≤ queueSizeLimit`
when the capacity is at least 1. -/
lemma step_preserves_bound (cfg : TransportConfig) (hq : 1 ≤ cfg.queueSizeLimit)
    (s : TransportState) (c : Cmd)
    (hs : s.buffer.length ≤ cfg.queueSizeLimit) :
    (step cfg s c).1.buffer.length ≤ cfg.queueSizeLimit := by
  rcases c with e | _ | _ | sendOk
  · simp only [step]
    split
    · exact hs
    · have hlen : (enqueueBuffer cfg s.buffer e).length ≤ cfg.queueSizeLimit := by
        unfold enqueueBuffer
        split <;>
          simp only [List.length_append, List.length_tail, List.length_cons,
            List.length_nil] <;>
          omega
      dsimp only
      split
      · exact le_trans (flushStart_buffer_le _) hlen
      · exact hlen
  · simp only [step]
    split
    · exact le_trans (flushStart_buffer_le s) hs
    · exact hs
  · simp only [step]
    split
    · exact hs
    · exact hs
  · simp only [step]
    split
    · exact hs
    · exact le_trans (flushRun_buffer_le _ _) hs

/-- The buffer bound is an invariant of every command sequence. -/
lemma run_preserves_bound (cfg : TransportConfig) (hq : 1 ≤ cfg.queueSizeLimit) :
    ∀ (cmds : List Cmd) (s : TransportState),
      s.buffer.length ≤ cfg.queueSizeLimit →
      (run cfg s cmds).buffer.length ≤ cfg.queueSizeLimit := by
  intro cmds
  induction cmds with
  | nil => intro s hs; exact hs
  | cons c cs ih =>
    intro s hs
    exact ih (step cfg s c).1 (step_preserves_bound cfg hq s c hs)

/-- C4 (amended: for configurations with `queueSizeLimit ≥ 1`).  Starting
from the initial state, the buffer length never exceeds `queueSizeLimit`
under any sequence of transport actions, and an enqueue arriving with the
buffer at capacity evicts exactly the oldest buffered event (the head) —
every newer event survives in order — before appending the new one. -/
theorem buffer_bounded_drop_oldest (cfg : TransportConfig)
    (hq : 1 ≤ cfg.queueSizeLimit) (cmds : List Cmd) :
    (run cfg initialState cmds).buffer.length ≤ cfg.queueSizeLimit
    ∧ ∀ (buf : List QuickSearchEvent) (e : QuickSearchEvent),
        buf.length = cfg.queueSizeLimit →
        enqueueBuffer cfg buf e = buf.tail ++ [e] := by
  constructor
  · exact run_preserves_bound cfg hq cmds initialState (by simp [initialState])
  · intro buf e hfull
    unfold enqueueBuffer
    rw [if_pos (le_of_eq hfull.symm)]

/-- Witness for C4 (amended) at a concrete input: with capacity 3, four
enqueues stay within the bound, and enqueueing into a full three-event buffer
drops its head. -/
theorem buffer_bounded_drop_oldest_witness :
    (run ⟨100, 3⟩ initialState [.enqueue sampleEvent, .enqueue sampleEvent,
        .enqueue sampleEvent, .enqueue sampleEvent]).buffer.length ≤ 3
    ∧ enqueueBuffer ⟨100, 3⟩ [sampleEvent, sampleEvent, sampleEvent] sampleEvent
        = [sampleEvent, sampleEvent, sampleEvent].tail ++ [sampleEvent] :=
  ⟨(buffer_bounded_drop_oldest ⟨100, 3⟩ (by decide) [.enqueue sampleEvent,
      .enqueue sampleEvent, .enqueue sampleEvent, .enqueue sampleEvent]).1,
   (buffer_bounded_drop_oldest ⟨100, 3⟩ (by decide) []).2
      [sampleEvent, sampleEvent, sampleEvent] sampleEvent rfl⟩

/-- Counterexample to C4 as stated (over *every* configuration): with
`queueSizeLimit = 0` a single enqueue leaves one event in the buffer
(`shift()` on the empty buffer is a no-op before the unconditional `push`),
so the buffer length exceeds the configured capacity. -/
theorem buffer_bound_zero_capacity_counterexample :
    (run ⟨100, 0⟩ initialState [.enqueue sampleEvent]).buffer.length
      > (⟨100, 0⟩ : TransportConfig).queueSizeLimit := by decide

/-- An enqueue that leaves the buffer strictly below `batchSize` triggers no
flush. -/
lemma enqueueSync_below (cfg : TransportConfig) (buf : List QuickSearchEvent)
    (t : Bool) (e : QuickSearchEvent)
    (hq : cfg.batchSize ≤ cfg.queueSizeLimit)
    (hlt : buf.length + 1 < cfg.batchSize) :
    enqueueSync cfg ⟨buf, t, false, false⟩ e
      = (⟨buf ++ [e], t, false, false⟩, none) := by
  have hcap : ¬ cfg.queueSizeLimit ≤ buf.length := by omega
  have hbatch : ¬ cfg.batchSize ≤ buf.length + 1 := by omega
  simp [enqueueSync, step, enqueueBuffer, flushStart, flushEnd, hcap, hbatch]

/-- An enqueue that makes the buffer reach exactly `batchSize` triggers one
flush, which drains everything. -/
lemma enqueueSync_hit (cfg : TransportConfig) (buf : List QuickSearchEvent)
    (t : Bool) (e : QuickSearchEvent)
    (hq : cfg.batchSize ≤ cfg.queueSizeLimit)
    (heq : buf.length + 1 = cfg.batchSize) :
    enqueueSync cfg ⟨buf, t, false, false⟩ e
      = (⟨[], t, false, false⟩, some (buf ++ [e])) := by
  have hcap : ¬ cfg.queueSizeLimit ≤ buf.length := by omega
  have hbatch : cfg.batchSize ≤ buf.length + 1 := by omega
  simp [enqueueSync, step, enqueueBuffer, flushStart, flushEnd, hcap, hbatch]

/-- Flush count and final buffer length over a run of enqueues from a state
below the threshold: one drain per time the running total reaches a multiple
of `batchSize`. -/
lemma runSync_spec (cfg : TransportConfig) (hb : 1 ≤ cfg.batchSize)
    (hq : cfg.batchSize ≤ cfg.queueSizeLimit) :
    ∀ (events buf : List QuickSearchEvent) (t : Bool),
      buf.length < cfg.batchSize →
      (runSync cfg ⟨buf, t, false, false⟩ events).1.buffer.length
          = (buf.length + events.length) % cfg.batchSize
      ∧ (runSync cfg ⟨buf, t, false, false⟩ events).2
          = (buf.length + events.length) / cfg.batchSize := by
  intro events
  induction events with
  | nil =>
    intro buf t hlt
    constructor
    · simp [runSync, Nat.mod_eq_of_lt hlt]
    · simp [runSync, Nat.div_eq_of_lt hlt]
  | cons e es ih =>
    intro buf t hlt
    by_cases hcase : buf.length + 1 < cfg.batchSize
    · have hstep := enqueueSync_below cfg buf t e hq hcase
      have hrec := ih (buf ++ [e]) t (by simp; omega)
      simp only [runSync, hstep]
      constructor
      · rw [hrec.1]
        congr 1
        simp
        omega
      · simp only [Option.isSome_none, Bool.false_eq_true, if_false, Nat.zero_add]
        rw [hrec.2]
        congr 1
        simp
        omega
    · have heq : buf.length + 1 = cfg.batchSize := by omega
      have hstep := enqueueSync_hit cfg buf t e hq heq
      have hrec := ih [] t (by simpa using hb)
      have harith : buf.length + (es.length + 1) = es.length + cfg.batchSize := by omega
      simp only [runSync, hstep]
      constructor
      · rw [hrec.1]
        simp only [List.length_nil, Nat.zero_add, List.length_cons]
        rw [harith, Nat.add_mod_right]
      · rw [hrec.2]
        simp only [Option.isSome_some, eq_self_iff_true, if_true, List.length_nil,
          Nat.zero_add, List.length_cons]
        rw [harith, Nat.add_div_right _ (show 0 < cfg.batchSize by omega)]
        omega

/-- C8. Under the schedule where each triggered flush settles before the next
enqueue, a sequence of `k` enqueues from the initial state produces exactly
`k / batchSize` flush drains — one per threshold crossing — and leaves
`k % batchSize` events buffered; in particular the drain count is far below
one per enqueue at or above the threshold (for `batchSize ≥ 1` and
`batchSize ≤ queueSizeLimit`, without which the threshold is degenerate or
unreachable). -/
theorem batch_threshold_single_flush (cfg : TransportConfig)
    (hb : 1 ≤ cfg.batchSize) (hq : cfg.batchSize ≤ cfg.queueSizeLimit)
    (events : List QuickSearchEvent) :
    (runSync cfg initialState events).2 = events.length / cfg.batchSize
    ∧ (runSync cfg initialState events).1.buffer.length
        = events.length % cfg.batchSize := by
  have h := runSync_spec cfg hb hq events [] true (by simpa using hb)
  exact ⟨by simpa [initialState] using h.2, by simpa [initialState] using h.1⟩

/-- Witness for C8 at a concrete input: `batchSize = 2`, three enqueues —
exactly one flush at the second enqueue, one event left buffered. -/
theorem batch_threshold_single_flush_witness :
    (runSync ⟨2, 10⟩ initialState [sampleEvent, sampleEvent, sampleEvent]).2 = 1
    ∧ (runSync ⟨2, 10⟩ initialState
        [sampleEvent, sampleEvent, sampleEvent]).1.buffer.length = 1 := by
  have h := batch_threshold_single_flush ⟨2, 10⟩ (by decide) (by decide)
    [sampleEvent, sampleEvent, sampleEvent]
  exact ⟨h.1, h.2⟩

/-! ## Claim theorems: request shape and level utilities -/

/-- C9 (amended: the Authorization header is present iff a *non-empty*
`apiKey` is configured).  Every delivery attempt issues a POST to the
endpoint `{serverUrl minus one trailing slash}/api/events` with body the JSON
serialization of the event; the headers always include
`Content-Type: application/json`; an `Authorization` header is present iff
the configured `apiKey` is a non-empty string (the empty string is falsy in
JavaScript, so `if (this.apiKey)` skips it), in which case it is
`Authorization: Bearer {apiKey}`. -/
theorem request_shape_and_auth_header (serverUrl : String) (apiKey : Option String)
    (e : QuickSearchEvent) :
    (buildRequest (mkHttpClient serverUrl apiKey) e).method = "POST"
    ∧ (buildRequest (mkHttpClient serverUrl apiKey) e).url
        = stripTrailingSlash serverUrl ++ "/api/events"
    ∧ (buildRequest (mkHttpClient serverUrl apiKey) e).body = eventToJson e
    ∧ ("Content-Type", "application/json")
        ∈ (buildRequest (mkHttpClient serverUrl apiKey) e).headers
    ∧ ((∃ v, ("Authorization", v)
          ∈ (buildRequest (mkHttpClient serverUrl apiKey) e).headers)
        ↔ ∃ k, apiKey = some k ∧ k ≠ "")
    ∧ (∀ k, apiKey = some k → k ≠ "" →
        ("Authorization", "Bearer " ++ k)
          ∈ (buildRequest (mkHttpClient serverUrl apiKey) e).headers) := by
  refine ⟨rfl, rfl, rfl, ?_, ?_, ?_⟩
  · rcases apiKey with _ | k
    · simp [buildRequest, mkHttpClient, getHeaders]
    · by_cases hk : k = "" <;> simp [buildRequest, mkHttpClient, getHeaders, hk]
  · rcases apiKey with _ | k
    · simp [buildRequest, mkHttpClient, getHeaders]
    · by_cases hk : k = "" <;> simp [buildRequest, mkHttpClient, getHeaders, hk]
  · intro k hk hne
    subst hk
    simp [buildRequest, mkHttpClient, getHeaders, hne]

/-- Witness for C9 (amended) at a concrete input: a non-empty key yields the
bearer header. -/
theorem request_shape_and_auth_header_witness :
    ("Authorization", "Bearer secret")
      ∈ (buildRequest (mkHttpClient "http://localhost:3000/" (some "secret"))
          sampleEvent).headers :=
  (request_shape_and_auth_header "http://localhost:3000/" (some "secret")
      sampleEvent).2.2.2.2.2 "secret" rfl (by decide)

/-- Counterexample to C9 as stated: with `apiKey` configured as the empty
string the request carries no `Authorization` header at all (the claim's
"if and only if an apiKey is configured" fails at `apiKey = some ""`). -/
theorem auth_header_empty_apiKey_counterexample :
    (mkHttpClient "http://localhost:3000" (some "")).apiKey = some ""
    ∧ (buildRequest (mkHttpClient "http://localhost:3000" (some ""))
        sampleEvent).headers = [("Content-Type", "application/json")] := by
  constructor
  · rfl
  · decide

/-- The six-name table misses every key that is not a level name. -/
lemma min_level_lookup_none (key : String)
    (h : key ∉ ["trace", "debug", "info", "warn", "error", "fatal"]) :
    MIN_LEVEL_VALUES.lookup key = none := by
  simp only [List.mem_cons, List.not_mem_nil, or_false, not_or] at h
  obtain ⟨h1, h2, h3, h4, h5, h6⟩ := h
  have hb1 : (key == "trace") = false := beq_eq_false_iff_ne.mpr h1
  have hb2 : (key == "debug") = false := beq_eq_false_iff_ne.mpr h2
  have hb3 : (key == "info") = false := beq_eq_false_iff_ne.mpr h3
  have hb4 : (key == "warn") = false := beq_eq_false_iff_ne.mpr h4
  have hb5 : (key == "error") = false := beq_eq_false_iff_ne.mpr h5
  have hb6 : (key == "fatal") = false := beq_eq_false_iff_ne.mpr h6
  simp [MIN_LEVEL_VALUES, List.lookup, hb1, hb2, hb3, hb4, hb5, hb6]

/-- C10 (amended: excluding names inherited from `Object.prototype`).  For
every numeric level and every `minimumLevel` string whose lowercased form is
neither one of the six known level names nor an `Object.prototype` property
name, the bracket lookup misses entirely, `?? 10` applies, and
`meetsMinimumLevel(l, minimumLevel)` is `l ≥ 10` — such an unrecognized
minimum level silently filters (almost) nothing rather than being rejected.
When the lowercased form *is* an `Object.prototype` property name, the
inherited non-nullish hit suppresses the `?? 10` fallback and
`meetsMinimumLevel` is false for every level — that name filters
everything. -/
theorem unknown_minimumLevel_defaults_trace (level : Int) (minimumLevel : String) :
    (toLowerCase minimumLevel ∉ ["trace", "debug", "info", "warn", "error", "fatal"] →
      toLowerCase minimumLevel ∉ OBJECT_PROTOTYPE_KEYS →
      getLevelValue minimumLevel = .num 10
      ∧ meetsMinimumLevel level minimumLevel = decide (10 ≤ level))
    ∧ (toLowerCase minimumLevel ∉ ["trace", "debug", "info", "warn", "error", "fatal"] →
      toLowerCase minimumLevel ∈ OBJECT_PROTOTYPE_KEYS →
      meetsMinimumLevel level minimumLevel = false) := by
  constructor
  · intro h hp
    have hlookup := min_level_lookup_none (toLowerCase minimumLevel) h
    constructor
    · simp [getLevelValue, MIN_LEVEL_VALUES_at, hlookup, hp]
    · simp [meetsMinimumLevel, getLevelValue, MIN_LEVEL_VALUES_at, hlookup, hp]
  · intro h hp
    have hlookup := min_level_lookup_none (toLowerCase minimumLevel) h
    simp [meetsMinimumLevel, getLevelValue, MIN_LEVEL_VALUES_at, hlookup, hp]

/-- Witness for C10 (amended) at concrete inputs: the unrecognized name
"unknown" maps to 10 and level 10 passes its filter, while the inherited
name "__proto__" (already lowercase, so `toLowerCase` preserves it) filters
even level 60.  Mixed-case prototype names such as "toString" lowercase to
plain misses ("tostring") and take the 10 default like any other unknown
name. -/
theorem unknown_minimumLevel_defaults_trace_witness :
    getLevelValue "unknown" = .num 10
    ∧ meetsMinimumLevel 10 "unknown" = decide ((10 : Int) ≤ 10)
    ∧ meetsMinimumLevel 60 "__proto__" = false :=
  ⟨((unknown_minimumLevel_defaults_trace 10 "unknown").1 (by decide) (by decide)).1,
   ((unknown_minimumLevel_defaults_trace 10 "unknown").1 (by decide) (by decide)).2,
   (unknown_minimumLevel_defaults_trace 60 "__proto__").2 (by decide) (by decide)⟩

/-- Counterexample to C10 as stated: `"constructor"` is lowercase and not one
of the six level names, yet the bracket lookup finds the inherited
`Object.prototype.constructor` — non-nullish, so `?? 10` never fires:
`getLevelValue` does not return 10, and `meetsMinimumLevel` is false even at
the highest level 60, so the unrecognized name filters everything instead of
nothing. -/
theorem getLevelValue_prototype_key_counterexample :
    toLowerCase "constructor" ∉ ["trace", "debug", "info", "warn", "error", "fatal"]
    ∧ getLevelValue "constructor" ≠ .num 10
    ∧ meetsMinimumLevel 60 "constructor" = false := by decide

end QuickSearch
